import Mathlib

/-!
Verification of the hookrunner webhook dispatch pipeline.

The Go sources are shallowly embedded: byte strings become `List Nat`
(each element a byte value), Go strings become `String`, fallible
operations return `Option`, and the HTTP handler becomes a pure function
from a request record to a result record.  Standard-library collaborators
(crypto/hmac, crypto/sha256, encoding/hex, encoding/json, regexp) are
implemented concretely below, restricted where noted to the fragment the
repository exercises.
-/

set_option maxRecDepth 100000

/-! ### Bytes and hex (encoding/hex) -/

/-- UTF-8 encoding of a single character, as byte values. -/
def utf8EncodeCharNat (c : Char) : List Nat :=
  let n := c.toNat
  if n < 128 then [n]
  else if n < 2048 then [192 + n / 64, 128 + n % 64]
  else if n < 65536 then [224 + n / 4096, 128 + n / 64 % 64, 128 + n % 64]
  else [240 + n / 262144, 128 + n / 4096 % 64, 128 + n / 64 % 64, 128 + n % 64]

/-- The byte sequence of a Go string (`[]byte(s)`): UTF-8 encoding. -/
def strBytes (s : String) : List Nat :=
  (s.data.map utf8EncodeCharNat).flatten

/-- The sixteen lowercase hex digit characters used by `hex.EncodeToString`. -/
def hexDigits : List Char := "0123456789abcdef".data

/-- Lowercase hex digit for a value below sixteen. -/
def hexDigit (n : Nat) : Char := hexDigits.getD n 'x'

/-- `hex.EncodeToString`: two lowercase hex digits per byte. -/
def hexEncode : List Nat → List Char
  | [] => []
  | b :: bs => hexDigit (b / 16) :: hexDigit (b % 16) :: hexEncode bs

/-- Hex encoding as a `String`. -/
def hexStr (bs : List Nat) : String := String.mk (hexEncode bs)

/-- Value of one hex digit character; accepts both cases, as Go's
`hex.DecodeString` does. -/
def charVal (c : Char) : Option Nat :=
  if '0' ≤ c ∧ c ≤ '9' then some (c.toNat - 48)
  else if 'a' ≤ c ∧ c ≤ 'f' then some (c.toNat - 87)
  else if 'A' ≤ c ∧ c ≤ 'F' then some (c.toNat - 55)
  else none

/-- `hex.DecodeString`: fails on an odd-length input or a non-hex digit. -/
def hexDecodeChars : List Char → Option (List Nat)
  | [] => some []
  | [_] => none
  | h :: l :: rest =>
    match charVal h, charVal l, hexDecodeChars rest with
    | some a, some b, some r => some ((a * 16 + b) :: r)
    | _, _, _ => none

/-- `stripLead p s` returns `s` without its leading run `p`, or `none` when
`s` does not start with `p` (fusing Go's `strings.HasPrefix` test with the
subsequent slice `s[len(p):]`). -/
def stripLead : List Char → List Char → Option (List Char)
  | [], s => some s
  | _ :: _, [] => none
  | p :: ps, c :: cs => if c = p then stripLead ps cs else none

/-! ### SHA-256 and HMAC (crypto/sha256, crypto/hmac) -/

/-- Truncation to a 32-bit word. -/
def w32 (n : Nat) : Nat := n % 4294967296

/-- Right rotation of a 32-bit word by `n` places. -/
def rotr (n w : Nat) : Nat := w / 2 ^ n + w % 2 ^ n * 2 ^ (32 - n)

/-- Logical right shift. -/
def shr (n w : Nat) : Nat := w / 2 ^ n

def bigSigma0 (x : Nat) : Nat := rotr 2 x ^^^ rotr 13 x ^^^ rotr 22 x

def bigSigma1 (x : Nat) : Nat := rotr 6 x ^^^ rotr 11 x ^^^ rotr 25 x

def smallSigma0 (x : Nat) : Nat := rotr 7 x ^^^ rotr 18 x ^^^ shr 3 x

def smallSigma1 (x : Nat) : Nat := rotr 17 x ^^^ rotr 19 x ^^^ shr 10 x

def chF (x y z : Nat) : Nat := x &&& y ^^^ (x ^^^ 4294967295) &&& z

def majF (x y z : Nat) : Nat := x &&& y ^^^ x &&& z ^^^ y &&& z

/-- The SHA-256 round constants (FIPS 180-4), in decimal. -/
def sha256K : List Nat :=
  [1116352408, 1899447441, 3049323471, 3921009573, 961987163,
   1508970993, 2453635748, 2870763221, 3624381080, 310598401,
   607225278, 1426881987, 1925078388, 2162078206, 2614888103,
   3248222580, 3835390401, 4022224774, 264347078, 604807628,
   770255983, 1249150122, 1555081692, 1996064986, 2554220882,
   2821834349, 2952996808, 3210313671, 3336571891, 3584528711,
   113926993, 338241895, 666307205, 773529912, 1294757372,
   1396182291, 1695183700, 1986661051, 2177026350, 2456956037,
   2730485921, 2820302411, 3259730800, 3345764771, 3516065817,
   3600352804, 4094571909, 275423344, 430227734, 506948616,
   659060556, 883997877, 958139571, 1322822218, 1537002063,
   1747873779, 1955562222, 2024104815, 2227730452, 2361852424,
   2428436474, 2756734187, 3204031479, 3329325298]

/-- The SHA-256 initial hash value (FIPS 180-4), in decimal. -/
def sha256H0 : List Nat :=
  [1779033703, 3144134277, 1013904242, 2773480762,
   1359893119, 2600822924, 528734635, 1541459225]

/-- Extends a 16-word message block to the 64-word schedule. -/
def sha256Schedule (block : List Nat) : List Nat :=
  (List.range 48).foldl
    (fun w _ =>
      let i := w.length
      w ++ [w32 (smallSigma1 (w.getD (i - 2) 0) + w.getD (i - 7) 0 +
                 smallSigma0 (w.getD (i - 15) 0) + w.getD (i - 16) 0)])
    block

/-- One SHA-256 round on the eight-word working state. -/
def sha256Round (st : List Nat) (kw : Nat × Nat) : List Nat :=
  match st with
  | [a, b, c, d, e, f, g, h] =>
    let t1 := w32 (h + bigSigma1 e + chF e f g + kw.1 + kw.2)
    let t2 := w32 (bigSigma0 a + majF a b c)
    [w32 (t1 + t2), a, b, c, w32 (d + t1), e, f, g]
  | other => other

/-- The SHA-256 compression function over one 16-word block. -/
def sha256Compress (h : List Nat) (block : List Nat) : List Nat :=
  let st := ((sha256K.zip (sha256Schedule block)).foldl sha256Round) h
  (h.zip st).map (fun p => w32 (p.1 + p.2))

/-- Big-endian 8-byte encoding of a length value. -/
def lenBytes64 (n : Nat) : List Nat :=
  [n / 2 ^ 56 % 256, n / 2 ^ 48 % 256, n / 2 ^ 40 % 256, n / 2 ^ 32 % 256,
   n / 2 ^ 24 % 256, n / 2 ^ 16 % 256, n / 2 ^ 8 % 256, n % 256]

/-- SHA-256 padding: a 0x80 byte, zeros to 56 mod 64, then the bit length. -/
def padMsg (msg : List Nat) : List Nat :=
  msg ++ [128] ++ List.replicate ((119 - msg.length % 64) % 64) 0 ++
    lenBytes64 (8 * msg.length)

/-- Big-endian packing of bytes into 32-bit words. -/
def toWords : List Nat → List Nat
  | a :: b :: c :: d :: rest => (a * 2 ^ 24 + b * 2 ^ 16 + c * 2 ^ 8 + d) :: toWords rest
  | _ => []

/-- Folds the compression function over the 16-word blocks of a word
list. -/
def sha256Blocks : List Nat → List Nat → List Nat
  | h, w0 :: w1 :: w2 :: w3 :: w4 :: w5 :: w6 :: w7 ::
       w8 :: w9 :: w10 :: w11 :: w12 :: w13 :: w14 :: w15 :: rest =>
    sha256Blocks
      (sha256Compress h
        [w0, w1, w2, w3, w4, w5, w6, w7, w8, w9, w10, w11, w12, w13, w14, w15])
      rest
  | h, _ => h

/-- Big-endian bytes of a 32-bit word. -/
def word32Bytes (w : Nat) : List Nat :=
  [w / 2 ^ 24 % 256, w / 2 ^ 16 % 256, w / 2 ^ 8 % 256, w % 256]

/-- SHA-256 of a byte sequence, as 32 bytes. -/
def sha256 (msg : List Nat) : List Nat :=
  (sha256Blocks sha256H0 (toWords (padMsg msg))).map word32Bytes |>.flatten

/-- HMAC-SHA-256 (`hmac.New(sha256.New, key)` followed by `Sum`). -/
def hmacSha256 (key msg : List Nat) : List Nat :=
  let k0 := if key.length > 64 then sha256 key else key
  let kpad := k0 ++ List.replicate (64 - k0.length) 0
  sha256 ((kpad.map (fun b => b ^^^ 92)) ++
          sha256 ((kpad.map (fun b => b ^^^ 54)) ++ msg))

/-! ### VerifySignature (internal/webhook) -/

/-- `VerifySignature` from internal/webhook/webhook.go: fails closed on an
empty secret, a signature header without the `sha256=` prefix, or a
non-hex remainder; otherwise compares the decoded signature with the
HMAC-SHA-256 of the payload under the secret.  Go's `hmac.Equal` is a
constant-time equality of byte slices; timing is outside this model, so it
is plain list equality here. -/
def VerifySignature (payload : List Nat) (signature secret : String) : Bool :=
  if secret = "" then false
  else
    match stripLead "sha256=".data signature.data with
    | none => false
    | some rest =>
      match hexDecodeChars rest with
      | none => false
      | some sig => sig == hmacSha256 (strBytes secret) payload

/-! ### Sanitize (internal/workflow) -/

/-- Character codes of the shell metacharacter class in
internal/workflow: semicolon 59, ampersand 38, pipe 124, dollar 36,
backtick 96, backslash 92, bang 33, parens 40 41, braces 123 125,
brackets 91 93, angle brackets 60 62, star 42, question mark 63, tilde
126, hash 35, single quote 39, double quote 34, newline 10, carriage
return 13. -/
def shellMetaCodes : List Nat :=
  [59, 38, 124, 36, 96, 92, 33, 40, 41, 123, 125, 91, 93, 60, 62, 42, 63,
   126, 35, 39, 34, 10, 13]

/-- Membership in the shell metacharacter class. -/
def isShellMeta (c : Char) : Bool := shellMetaCodes.contains c.toNat

/-- `Sanitize` from internal/workflow: `shellMetaChars.ReplaceAllString(input, "")`,
i.e. every character of the class is deleted and all others kept. -/
def Sanitize (s : String) : String :=
  String.mk (s.data.filter (fun c => !isShellMeta c))

/-! ### String helpers used by the trigger matcher -/

/-- Character-wise case-insensitive equality, modelling Go's
`strings.EqualFold` (exact on ASCII, which is all the matcher compares). -/
def eqFoldChars : List Char → List Char → Bool
  | [], [] => true
  | c :: cs, d :: ds => (c.toLower == d.toLower) && eqFoldChars cs ds
  | _, _ => false

/-- `strings.EqualFold`. -/
def stringsEqualFold (a b : String) : Bool := eqFoldChars a.data b.data

/-- `eventMatches` from internal/webhook/webhook.go: linear scan of the
rule's events list for the incoming event type; an empty list matches
nothing. -/
def eventMatches (eventType : String) : List String → Bool
  | [] => false
  | e :: rest => if e = eventType then true else eventMatches eventType rest

/-- `authorAllowed` from internal/webhook/webhook.go: linear scan with
case-insensitive comparison. -/
def authorAllowed (author : String) : List String → Bool
  | [] => false
  | a :: rest => if stringsEqualFold a author then true else authorAllowed author rest

/-! ### Regular expressions (regexp)

The rule triggers go through Go's `regexp.Compile` / `MatchString`.  The
engine below implements the fragment the repository's patterns use:
literals, escapes (with the Perl classes for s, d and w), `.`, character
classes, grouping, alternation, the three postfix repetitions, and `^`/`$`
anchors at the ends of the pattern.  Patterns outside the fragment fail to
compile.  Matching is unanchored substring search unless the pattern
anchors itself, as with Go. -/

inductive Rx where
  | emp : Rx
  | eps : Rx
  | lit : Char → Rx
  | cls : Bool → List (Char × Char) → Rx
  | cat : Rx → Rx → Rx
  | alt : Rx → Rx → Rx
  | star : Rx → Rx

/-- Does the regex accept the empty string? -/
def nullable : Rx → Bool
  | .emp => false
  | .eps => true
  | .lit _ => false
  | .cls _ _ => false
  | .cat a b => nullable a && nullable b
  | .alt a b => nullable a || nullable b
  | .star _ => true

/-- Does a (possibly negated) character class contain a character? -/
def clsMatch (neg : Bool) (rs : List (Char × Char)) (c : Char) : Bool :=
  let inside := rs.any (fun p => decide (p.1 ≤ c) && decide (c ≤ p.2))
  if neg then !inside else inside

/-- Brzozowski derivative with respect to one character. -/
def derivChar (c : Char) : Rx → Rx
  | .emp => .emp
  | .eps => .emp
  | .lit d => if c = d then .eps else .emp
  | .cls n rs => if clsMatch n rs c then .eps else .emp
  | .cat a b =>
    if nullable a then .alt (.cat (derivChar c a) b) (derivChar c b)
    else .cat (derivChar c a) b
  | .alt a b => .alt (derivChar c a) (derivChar c b)
  | .star a => .cat (derivChar c a) (.star a)

/-- Whole-string acceptance via iterated derivatives. -/
def fullMatch (r : Rx) (s : List Char) : Bool :=
  nullable (s.foldl (fun r c => derivChar c r) r)

/-- A class matching every character (negation of the empty class). -/
def anyCharRx : Rx := Rx.cls true []

/-- Perl class ranges for the escape letter, or a literal for anything else. -/
def escRx (c : Char) : Rx :=
  if c = 's' then Rx.cls false [('\t', '\n'), ('\x0c', '\r'), (' ', ' ')]
  else if c = 'S' then Rx.cls true [('\t', '\n'), ('\x0c', '\r'), (' ', ' ')]
  else if c = 'd' then Rx.cls false [('0', '9')]
  else if c = 'D' then Rx.cls true [('0', '9')]
  else if c = 'w' then Rx.cls false [('0', '9'), ('A', 'Z'), ('a', 'z'), ('_', '_')]
  else if c = 'W' then Rx.cls true [('0', '9'), ('A', 'Z'), ('a', 'z'), ('_', '_')]
  else Rx.lit c

/-- Applies any run of postfix repetition operators to a parsed atom. -/
def rxRepeats (r : Rx) : List Char → Rx × List Char
  | '*' :: rest => rxRepeats (Rx.star r) rest
  | '+' :: rest => rxRepeats (Rx.cat r (Rx.star r)) rest
  | '?' :: rest => rxRepeats (Rx.alt r Rx.eps) rest
  | rest => (r, rest)

/-- Parses the items of a character class up to the closing bracket. -/
def parseClassItems (fuel : Nat) (cs : List Char) (acc : List (Char × Char)) :
    Option (List (Char × Char) × List Char) :=
  match fuel, cs with
  | 0, _ => none
  | _, [] => none
  | f + 1, c :: rest =>
    if c = ']' then if acc = [] then none else some (acc.reverse, rest)
    else if c = '\\' then
      match rest with
      | e :: rest2 => parseClassItems f rest2 ((e, e) :: acc)
      | [] => none
    else
      match rest with
      | '-' :: e :: rest2 =>
        if e = ']' then some ((acc.reverse ++ [(c, c), ('-', '-')]), rest2)
        else parseClassItems f rest2 ((c, e) :: acc)
      | _ => parseClassItems f rest ((c, c) :: acc)

mutual

/-- Parses one atom: a group, a dot, an escape, a class or a literal. -/
def parseAtom : Nat → List Char → Option (Rx × List Char)
  | 0, _ => none
  | _, [] => none
  | f + 1, c :: rest =>
    if c = '(' then
      match parseAltRx f rest with
      | some (r, ')' :: rest2) => some (r, rest2)
      | _ => none
    else if c = '.' then some (Rx.cls true [('\n', '\n')], rest)
    else if c = '\\' then
      match rest with
      | [] => none
      | e :: rest2 => some (escRx e, rest2)
    else if c = '[' then
      match rest with
      | '^' :: rest2 =>
        match parseClassItems f rest2 [] with
        | some (items, rest3) => some (Rx.cls true items, rest3)
        | none => none
      | _ =>
        match parseClassItems f rest [] with
        | some (items, rest3) => some (Rx.cls false items, rest3)
        | none => none
    else if c = ')' ∨ c = '|' ∨ c = '*' ∨ c = '+' ∨ c = '?' ∨ c = '^' ∨
            c = '$' ∨ c = ']' then none
    else some (Rx.lit c, rest)

/-- Parses a concatenation of repeated atoms up to a delimiter. -/
def parseSeq : Nat → List Char → Option (Rx × List Char)
  | 0, _ => none
  | f + 1, cs =>
    if cs = [] ∨ cs.headD ' ' = ')' ∨ cs.headD ' ' = '|' ∨ cs.headD ' ' = '$' then
      some (Rx.eps, cs)
    else
      match parseAtom f cs with
      | none => none
      | some (r, rest) =>
        let p := rxRepeats r rest
        match parseSeq f p.2 with
        | none => none
        | some (r3, rest3) => some (Rx.cat p.1 r3, rest3)

/-- Parses an alternation of concatenations. -/
def parseAltRx : Nat → List Char → Option (Rx × List Char)
  | 0, _ => none
  | f + 1, cs =>
    match parseSeq f cs with
    | none => none
    | some (r, '|' :: rest) =>
      match parseAltRx f rest with
      | none => none
      | some (r2, rest2) => some (Rx.alt r r2, rest2)
    | some (r, rest) => some (r, rest)

end

/-- A compiled pattern: the body plus whether the pattern anchored its
start with a leading caret or its end with a trailing dollar. -/
structure CompiledRx where
  startAnchor : Bool
  core : Rx
  endAnchor : Bool

/-- `regexp.Compile` over the supported fragment: strips a leading caret
and a trailing dollar, parses the body, and rejects anything the fragment
does not cover. -/
def regexpCompile (pat : String) : Option CompiledRx :=
  let p := match pat.data with
    | '^' :: rest => (true, rest)
    | cs => (false, cs)
  match parseAltRx (p.2.length * 2 + 2) p.2 with
  | some (r, []) => some ⟨p.1, r, false⟩
  | some (r, ['$']) => some ⟨p.1, r, true⟩
  | _ => none

/-- `Regexp.MatchString`: unanchored search, respecting the pattern's own
anchors, realized by padding with an unrestricted star on each unanchored
side. -/
def reMatchString (re : CompiledRx) (s : String) : Bool :=
  let pre := if re.startAnchor then Rx.eps else Rx.star anyCharRx
  let post := if re.endAnchor then Rx.eps else Rx.star anyCharRx
  fullMatch (Rx.cat pre (Rx.cat re.core post)) s.data

/-- The trigger test the dispatch loop performs after a successful
compile; `false` stands for the `continue` taken on a compile error. -/
def triggerMatches (trigger text : String) : Bool :=
  match regexpCompile trigger with
  | none => false
  | some re => reMatchString re text

/-! ### JSON (encoding/json)

`json.Unmarshal` splits into a text-level parse producing a JSON tree and
a decode of that tree into the `webhookEvent` struct; either failure makes
the handler answer 400.  The parser below covers the fragment the webhook
bodies use: ASCII input, integer numbers, strings with the single-character
escapes.  The decode mirrors Go's semantics for the struct declared in
internal/webhook/webhook.go: an absent or null key leaves the zero value,
a key of the wrong shape is an error, unknown keys are ignored, and a
duplicated key keeps its last occurrence. -/

inductive Json where
  | null : Json
  | bool : Bool → Json
  | num : Int → Json
  | str : String → Json
  | arr : List Json → Json
  | obj : List (String × Json) → Json

/-- Skips JSON whitespace. -/
def jSkipWs : List Char → List Char
  | c :: rest =>
    if c = ' ' ∨ c = '\t' ∨ c = '\n' ∨ c = '\r' then jSkipWs rest else c :: rest
  | [] => []

/-- Reads string content up to the closing quote, handling the
single-character escapes; rejects raw control characters. -/
def jParseStringChars : List Char → Option (List Char × List Char)
  | [] => none
  | c :: rest =>
    if c = '"' then some ([], rest)
    else if c = '\\' then
      match rest with
      | [] => none
      | e :: rest2 =>
        let dec : Option Char :=
          if e = '"' then some '"'
          else if e = '\\' then some '\\'
          else if e = '/' then some '/'
          else if e = 'n' then some '\n'
          else if e = 't' then some '\t'
          else if e = 'r' then some '\r'
          else if e = 'b' then some '\x08'
          else if e = 'f' then some '\x0c'
          else none
        match dec with
        | none => none
        | some d =>
          match jParseStringChars rest2 with
          | some (s, r) => some (d :: s, r)
          | none => none
    else if c.toNat < 32 then none
    else
      match jParseStringChars rest with
      | some (s, r) => some (c :: s, r)
      | none => none

/-- Splits off a leading run of decimal digits. -/
def jDigits : List Char → List Char × List Char
  | c :: rest =>
    if '0' ≤ c ∧ c ≤ '9' then
      let p := jDigits rest
      (c :: p.1, p.2)
    else ([], c :: rest)
  | [] => ([], [])

/-- Numeric value of a digit run. -/
def digitsToNat (ds : List Char) : Nat :=
  ds.foldl (fun a c => a * 10 + (c.toNat - 48)) 0

/-- After a digit run, fail on a fraction or exponent (outside the
integer fragment this model covers). -/
def jNumStop : List Char → Bool
  | c :: _ => !(c = '.' ∨ c = 'e' ∨ c = 'E')
  | [] => true

mutual

/-- Parses one JSON value. -/
def jParseValue : Nat → List Char → Option (Json × List Char)
  | 0, _ => none
  | f + 1, cs =>
    match jSkipWs cs with
    | [] => none
    | c :: rest =>
      if c = 'n' then
        match stripLead "ull".data rest with
        | some r => some (Json.null, r)
        | none => none
      else if c = 't' then
        match stripLead "rue".data rest with
        | some r => some (Json.bool true, r)
        | none => none
      else if c = 'f' then
        match stripLead "alse".data rest with
        | some r => some (Json.bool false, r)
        | none => none
      else if c = '"' then
        match jParseStringChars rest with
        | some (s, r) => some (Json.str (String.mk s), r)
        | none => none
      else if c = '-' then
        match jDigits rest with
        | ([], _) => none
        | (ds, r) => if jNumStop r then some (Json.num (-(digitsToNat ds : Int)), r) else none
      else if '0' ≤ c ∧ c ≤ '9' then
        let p := jDigits (c :: rest)
        if jNumStop p.2 then some (Json.num (digitsToNat p.1 : Int), p.2) else none
      else if c = '[' then
        match jSkipWs rest with
        | ']' :: r => some (Json.arr [], r)
        | cs2 =>
          match jParseItems f cs2 with
          | some (items, r) => some (Json.arr items, r)
          | none => none
      else if c = '\x7b' then
        match jSkipWs rest with
        | '\x7d' :: r => some (Json.obj [], r)
        | cs2 =>
          match jParseFields f cs2 with
          | some (fields, r) => some (Json.obj fields, r)
          | none => none
      else none

/-- Parses the comma-separated values of a non-empty array. -/
def jParseItems : Nat → List Char → Option (List Json × List Char)
  | 0, _ => none
  | f + 1, cs =>
    match jParseValue f cs with
    | none => none
    | some (v, rest) =>
      match jSkipWs rest with
      | ',' :: r =>
        match jParseItems f r with
        | some (vs, r2) => some (v :: vs, r2)
        | none => none
      | ']' :: r => some ([v], r)
      | _ => none

/-- Parses the members of a non-empty object. -/
def jParseFields : Nat → List Char → Option (List (String × Json) × List Char)
  | 0, _ => none
  | f + 1, cs =>
    match jSkipWs cs with
    | '"' :: rest =>
      match jParseStringChars rest with
      | none => none
      | some (k, r) =>
        match jSkipWs r with
        | ':' :: r2 =>
          match jParseValue f r2 with
          | none => none
          | some (v, r3) =>
            match jSkipWs r3 with
            | ',' :: r4 =>
              match jParseFields f r4 with
              | some (fs, r5) => some ((String.mk k, v) :: fs, r5)
              | none => none
            | '\x7d' :: r4 => some ([(String.mk k, v)], r4)
            | _ => none
        | _ => none
    | _ => none

end

/-- Parses a full JSON text: one value and trailing whitespace only. -/
def jsonParseChars (cs : List Char) : Option Json :=
  match jParseValue (cs.length * 2 + 2) cs with
  | some (v, rest) => if jSkipWs rest = [] then some v else none
  | none => none

/-- Reads a byte sequence as ASCII characters. -/
def bytesToAscii (bs : List Nat) : Option (List Char) :=
  if bs.all (fun b => b < 128) then some (bs.map Char.ofNat) else none

/-- The text-level half of `json.Unmarshal` on the raw body bytes. -/
def jsonParse (body : List Nat) : Option Json :=
  match bytesToAscii body with
  | none => none
  | some cs => jsonParseChars cs

/-! ### The webhookEvent struct and its decode -/

structure UserPart where
  login : String

structure CommentPart where
  body : String
  user : UserPart

structure IssuePart where
  number : Int

structure ReviewPart where
  body : String
  user : UserPart

structure PullRequestPart where
  number : Int
  merged : Bool

structure RepositoryPart where
  full_name : String
  clone_url : String

/-- The `webhookEvent` struct from internal/webhook/webhook.go, with the
same nesting and json keys. -/
structure webhookEvent where
  action : String
  comment : CommentPart
  issue : IssuePart
  review : ReviewPart
  pullRequest : PullRequestPart
  repository : RepositoryPart

/-- Last binding of a key in an object (a duplicated key overwrites). -/
def jLookup (fields : List (String × Json)) (k : String) : Option Json :=
  fields.foldl (fun acc f => if f.1 = k then some f.2 else acc) none

/-- Decodes a string field: absent or null gives the zero value, any
non-string shape is an unmarshal error. -/
def decStr (fields : List (String × Json)) (k : String) : Option String :=
  match jLookup fields k with
  | none => some ""
  | some Json.null => some ""
  | some (Json.str s) => some s
  | some _ => none

/-- Decodes an integer field. -/
def decInt (fields : List (String × Json)) (k : String) : Option Int :=
  match jLookup fields k with
  | none => some 0
  | some Json.null => some 0
  | some (Json.num n) => some n
  | some _ => none

/-- Decodes a boolean field. -/
def decBool (fields : List (String × Json)) (k : String) : Option Bool :=
  match jLookup fields k with
  | none => some false
  | some Json.null => some false
  | some (Json.bool b) => some b
  | some _ => none

/-- Member list of a nested-object field: absent or null decodes the
inner struct from nothing (zero value), any non-object shape errors. -/
def subFields (fields : List (String × Json)) (k : String) :
    Option (List (String × Json)) :=
  match jLookup fields k with
  | none => some []
  | some Json.null => some []
  | some (Json.obj fs) => some fs
  | some _ => none

def unmarshalUser (fs : List (String × Json)) : Option UserPart := do
  let login ← decStr fs "login"
  pure ⟨login⟩

def unmarshalComment (fs : List (String × Json)) : Option CommentPart := do
  let body ← decStr fs "body"
  let u ← unmarshalUser (← subFields fs "user")
  pure ⟨body, u⟩

def unmarshalIssue (fs : List (String × Json)) : Option IssuePart := do
  let n ← decInt fs "number"
  pure ⟨n⟩

def unmarshalReview (fs : List (String × Json)) : Option ReviewPart := do
  let body ← decStr fs "body"
  let u ← unmarshalUser (← subFields fs "user")
  pure ⟨body, u⟩

def unmarshalPR (fs : List (String × Json)) : Option PullRequestPart := do
  let n ← decInt fs "number"
  let m ← decBool fs "merged"
  pure ⟨n, m⟩

def unmarshalRepo (fs : List (String × Json)) : Option RepositoryPart := do
  let fn ← decStr fs "full_name"
  let cu ← decStr fs "clone_url"
  pure ⟨fn, cu⟩

/-- The decode half of `json.Unmarshal` into `webhookEvent`: the document
must be an object, and every declared field must have a compatible shape. -/
def unmarshalEvent (j : Json) : Option webhookEvent :=
  match j with
  | Json.obj fs => do
    let action ← decStr fs "action"
    let comment ← unmarshalComment (← subFields fs "comment")
    let issue ← unmarshalIssue (← subFields fs "issue")
    let review ← unmarshalReview (← subFields fs "review")
    let pr ← unmarshalPR (← subFields fs "pull_request")
    let repo ← unmarshalRepo (← subFields fs "repository")
    pure ⟨action, comment, issue, review, pr, repo⟩
  | _ => none

/-! ### Configuration -/

/-- One workflow rule, with the fields the dispatch path reads.  The
declaring package internal/config is not part of the source tree; the
field set is taken from its uses in internal/webhook and internal/workflow
and from the repository's tests. -/
structure WorkflowConfig where
  events : List String
  authors : List String
  trigger : String
  command : String
  workdir : String
  timeout : Int

/-- The loaded configuration as the handler consumes it.  Go iterates the
workflow map in unspecified order; the embedding fixes the association
list's order, which no claim depends on. -/
structure Config where
  webhookSecret : String
  port : Int
  workflows : List (String × WorkflowConfig)

/-- Modelled from the spec: the configuration loader (package
internal/config, absent from the source tree — only its callers, its tests
and the repository's handoff document appear) substitutes the fixed
default event set for a workflow whose config specifies no events list:
"`eventKinds` (set of kinds it listens to; empty/default = a fixed
standard set)", the standard set being issue_comment,
pull_request_review_comment and pull_request_review. -/
def applyEventDefault (wf : WorkflowConfig) : WorkflowConfig :=
  if wf.events = [] then
    { wf with events :=
        ["issue_comment", "pull_request_review_comment", "pull_request_review"] }
  else wf

/-! ### The handler (internal/webhook.Handler) -/

/-- Outcome of the event-type switch in the handler: an early return with
"event ignored", an early return with "action ignored", or the comment
body, comment author and match string it falls through with. -/
inductive NormOutcome where
  | eventIgnored : NormOutcome
  | actionIgnored : NormOutcome
  | proceed (commentBody commentAuthor matchString : String) : NormOutcome

/-- The fall-through tail of the switch: when the branch produced no
synthesized match string, the comment body is matched against. -/
def finishNorm (cb ca ms : String) : NormOutcome :=
  NormOutcome.proceed cb ca (if ms = "" then cb else ms)

/-- The event-type switch of the handler (webhook.go lines 219 to 250),
selecting per-category action filters and field mappings. -/
def normalizeEvent (eventType : String) (event : webhookEvent) : NormOutcome :=
  if eventType = "issue_comment" ∨ eventType = "pull_request_review_comment" then
    if event.action ≠ "created" then .actionIgnored
    else finishNorm event.comment.body event.comment.user.login ""
  else if eventType = "pull_request_review" then
    if event.action ≠ "submitted" then .actionIgnored
    else finishNorm event.review.body event.review.user.login ""
  else if eventType = "pull_request" then
    finishNorm "" ""
      (event.action ++ ":" ++ if event.pullRequest.merged then "merged" else "unmerged")
  else .eventIgnored

/-- One iteration of the dispatch loop: the three `continue` filters, then
on a trigger match the rule is recorded as launched and the matched flag
set.  The recorded list stands for the `go workflow.Execute` calls. -/
def ruleStep (eventType author text : String) (acc : Bool × List String)
    (rule : String × WorkflowConfig) : Bool × List String :=
  if !eventMatches eventType rule.2.events then acc
  else if decide (0 < rule.2.authors.length) && !authorAllowed author rule.2.authors then acc
  else
    match regexpCompile rule.2.trigger with
    | none => acc
    | some re => if reMatchString re text then (true, acc.2 ++ [rule.1]) else acc

/-- The dispatch loop over all configured rules. -/
def ruleLoop (ws : List (String × WorkflowConfig)) (eventType author text : String) :
    Bool × List String :=
  ws.foldl (ruleStep eventType author text) (false, [])

/-- The full per-rule match predicate (event kind, author allowlist,
compiled trigger), equivalent to one loop iteration's path to dispatch. -/
def ruleMatches (eventType author text : String) (wf : WorkflowConfig) : Bool :=
  eventMatches eventType wf.events &&
  (wf.authors.isEmpty || authorAllowed author wf.authors) &&
  triggerMatches wf.trigger text

/-- An inbound request as the handler reads it: the method, the raw body
bytes, and the two headers it consults. -/
structure HookRequest where
  method : String
  body : List Nat
  signatureHeader : String
  eventTypeHeader : String

/-- The handler's observable outcome: HTTP status, response body, and the
names of the workflows launched asynchronously, in loop order. -/
structure HandlerResult where
  status : Nat
  responseBody : String
  dispatched : List String

deriving instance DecidableEq for HandlerResult

/-- The tail of the handler after normalization: the dispatch loop and the
final status mapping, 202 when the matched flag was set and 200 otherwise. -/
def dispatchStage (cfg : Config) (eventType ca ms : String) : HandlerResult :=
  let r := ruleLoop cfg.workflows eventType ca ms
  if r.1 then ⟨202, "workflow dispatched\n", r.2⟩
  else ⟨200, "no matching workflow\n", r.2⟩

/-- The handler's continuation after `json.Unmarshal` succeeded: the two
early returns of the event-type switch, or the dispatch loop. -/
def afterNorm (cfg : Config) (eventType : String) : NormOutcome → HandlerResult
  | .eventIgnored => ⟨200, "event ignored\n", []⟩
  | .actionIgnored => ⟨200, "action ignored\n", []⟩
  | .proceed _ ca ms => dispatchStage cfg eventType ca ms

/-- The handler's continuation after reading and authenticating the body:
`json.Unmarshal` with its 400 on failure, then the switch. -/
def afterParse (cfg : Config) (eventType : String) : Option webhookEvent → HandlerResult
  | none => ⟨400, "invalid JSON\n", []⟩
  | some event => afterNorm cfg eventType (normalizeEvent eventType event)

/-- `Handler` from internal/webhook/webhook.go: method check, the 10 MiB
body ceiling of `MaxBytesReader`, signature verification, `json.Unmarshal`
(text parse then struct decode), the event-type switch, and the dispatch
loop with its status mapping. -/
def Handler (cfg : Config) (req : HookRequest) : HandlerResult :=
  if req.method ≠ "POST" then ⟨405, "method not allowed\n", []⟩
  else if req.body.length > 10485760 then ⟨413, "request too large\n", []⟩
  else if !VerifySignature req.body req.signatureHeader cfg.webhookSecret then
    ⟨403, "invalid signature\n", []⟩
  else afterParse cfg req.eventTypeHeader ((jsonParse req.body).bind unmarshalEvent)

/-- The names of the rules the match predicate accepts, in list order. -/
def matchedNames (eventType author text : String)
    (ws : List (String × WorkflowConfig)) : List String :=
  (ws.filter (fun nw => ruleMatches eventType author text nw.2)).map Prod.fst

/-! ### Supporting lemmas -/

theorem stripLead_append (p s : List Char) : stripLead p (p ++ s) = some s := by
  induction p with
  | nil => rfl
  | cons c cs ih => simp [stripLead, ih]

theorem charVal_hexDigit : ∀ n, n < 16 → charVal (hexDigit n) = some n := by decide

theorem hexDecode_encode (bs : List Nat) (h : ∀ b ∈ bs, b < 256) :
    hexDecodeChars (hexEncode bs) = some bs := by
  induction bs with
  | nil => rfl
  | cons b bs ih =>
    have hb : b < 256 := h b (List.mem_cons_self b bs)
    have h1 : b / 16 < 16 := by omega
    have h2 : b % 16 < 16 := by omega
    have ih2 := ih (fun x hx => h x (List.mem_cons_of_mem b hx))
    simp only [hexEncode, hexDecodeChars, charVal_hexDigit _ h1,
      charVal_hexDigit _ h2, ih2]
    have : b / 16 * 16 + b % 16 = b := by omega
    rw [this]

theorem word32Bytes_lt (w : Nat) : ∀ b ∈ word32Bytes w, b < 256 := by
  intro b hb
  simp only [word32Bytes, List.mem_cons, List.not_mem_nil, or_false] at hb
  rcases hb with h | h | h | h <;> omega

theorem sha256_bytes_lt (msg : List Nat) : ∀ b ∈ sha256 msg, b < 256 := by
  intro b hb
  simp only [sha256, List.mem_flatten, List.mem_map] at hb
  obtain ⟨l, ⟨w, _, rfl⟩, hbl⟩ := hb
  exact word32Bytes_lt w b hbl

theorem hmac_bytes_lt (key msg : List Nat) : ∀ b ∈ hmacSha256 key msg, b < 256 := by
  intro b hb
  unfold hmacSha256 at hb
  exact sha256_bytes_lt _ b hb

theorem verify_empty_secret (payload : List Nat) (sig : String) :
    VerifySignature payload sig "" = false := by
  simp [VerifySignature]

theorem verify_roundtrip (payload : List Nat) (secret : String) (h : secret ≠ "") :
    VerifySignature payload
      ("sha256=" ++ hexStr (hmacSha256 (strBytes secret) payload)) secret = true := by
  unfold VerifySignature
  rw [if_neg h]
  rw [show ("sha256=" ++ hexStr (hmacSha256 (strBytes secret) payload)).data
        = "sha256=".data ++ hexEncode (hmacSha256 (strBytes secret) payload) by
      rw [String.data_append]
      rfl]
  rw [stripLead_append]
  simp [hexDecode_encode _ (hmac_bytes_lt _ _)]

theorem verify_mismatch (payload : List Nat) (secret : String) (rest : List Char)
    (h : hexDecodeChars rest ≠ some (hmacSha256 (strBytes secret) payload)) :
    VerifySignature payload (String.mk ("sha256=".data ++ rest)) secret = false := by
  unfold VerifySignature
  by_cases hs : secret = ""
  · rw [if_pos hs]
  · rw [if_neg hs,
      show (String.mk ("sha256=".data ++ rest)).data = "sha256=".data ++ rest from rfl,
      stripLead_append]
    cases hd : hexDecodeChars rest with
    | none => simp [hd]
    | some d =>
      have hne : d ≠ hmacSha256 (strBytes secret) payload := by
        intro he
        exact h (by rw [hd, he])
      simp [hd, hne]

theorem verify_no_prefix (payload : List Nat) (sig secret : String)
    (h : stripLead "sha256=".data sig.data = none) :
    VerifySignature payload sig secret = false := by
  unfold VerifySignature
  by_cases hs : secret = ""
  · rw [if_pos hs]
  · rw [if_neg hs, h]

theorem data_nil_iff (s : String) : s.data = [] ↔ s = "" := by
  cases s with
  | mk l =>
    constructor
    · intro h
      exact congrArg String.mk h
    · intro h
      rw [h]

theorem authorAllowed_empty_author (l : List String) :
    (∀ a ∈ l, a ≠ "") → authorAllowed "" l = false := by
  induction l with
  | nil => intro _; rfl
  | cons a rest ih =>
    intro h
    have ha : a ≠ "" := h a (List.mem_cons_self a rest)
    have hd : a.data ≠ [] := fun hc => ha ((data_nil_iff a).mp hc)
    have hf : stringsEqualFold a "" = false := by
      unfold stringsEqualFold
      cases hc : a.data with
      | nil => exact absurd hc hd
      | cons c cs => rfl
    have ih2 := ih (fun x hx => h x (List.mem_cons_of_mem a hx))
    simp [authorAllowed, hf, ih2]

theorem colon_append_ne_empty (a b : String) : a ++ ":" ++ b ≠ "" := by
  intro h
  have : (a ++ ":" ++ b).data = [] := by rw [h]
  simp [String.data_append] at this

theorem ruleStep_eq (et ca ms : String) (acc : Bool × List String)
    (nw : String × WorkflowConfig) :
    ruleStep et ca ms acc nw =
      if ruleMatches et ca ms nw.2 then (true, acc.2 ++ [nw.1]) else acc := by
  have hgate : (decide (0 < nw.2.authors.length) && !authorAllowed ca nw.2.authors)
      = !(nw.2.authors.isEmpty || authorAllowed ca nw.2.authors) := by
    cases h : nw.2.authors <;> simp [authorAllowed]
  unfold ruleStep ruleMatches triggerMatches
  rw [hgate]
  cases hev : eventMatches et nw.2.events with
  | false => simp
  | true =>
    cases hor : (nw.2.authors.isEmpty || authorAllowed ca nw.2.authors) with
    | false => simp
    | true =>
      simp only [Bool.not_true, Bool.false_eq_true, if_false, Bool.true_and]
      cases hc : regexpCompile nw.2.trigger with
      | none => simp
      | some re => cases hm : reMatchString re ms <;> simp

theorem ruleLoop_go (et ca ms : String) (ws : List (String × WorkflowConfig)) :
    ∀ (b : Bool) (l : List String),
      ws.foldl (ruleStep et ca ms) (b, l) =
        (b || !(matchedNames et ca ms ws).isEmpty, l ++ matchedNames et ca ms ws) := by
  induction ws with
  | nil => intro b l; simp [matchedNames]
  | cons nw rest ih =>
    intro b l
    rw [List.foldl_cons, ruleStep_eq]
    cases hm : ruleMatches et ca ms nw.2 with
    | true =>
      simp only [if_true]
      rw [ih]
      simp [matchedNames, List.filter_cons, hm]
    | false =>
      simp only [if_false]
      rw [ih]
      simp [matchedNames, List.filter_cons, hm]

theorem ruleLoop_eq (et ca ms : String) (ws : List (String × WorkflowConfig)) :
    ruleLoop ws et ca ms =
      (!(matchedNames et ca ms ws).isEmpty, matchedNames et ca ms ws) := by
  unfold ruleLoop
  rw [ruleLoop_go]
  simp

theorem dispatchStage_eq (cfg : Config) (et ca ms : String) :
    dispatchStage cfg et ca ms =
      if matchedNames et ca ms cfg.workflows = [] then
        ⟨200, "no matching workflow\n", matchedNames et ca ms cfg.workflows⟩
      else ⟨202, "workflow dispatched\n", matchedNames et ca ms cfg.workflows⟩ := by
  unfold dispatchStage
  rw [ruleLoop_eq]
  cases hm : matchedNames et ca ms cfg.workflows with
  | nil => simp
  | cons x xs => simp

theorem Handler_stages (cfg : Config) (req : HookRequest)
    (h1 : req.method = "POST") (h2 : req.body.length ≤ 10485760)
    (h3 : VerifySignature req.body req.signatureHeader cfg.webhookSecret = true) :
    Handler cfg req = afterParse cfg req.eventTypeHeader
      ((jsonParse req.body).bind unmarshalEvent) := by
  unfold Handler
  rw [if_neg (by simp [h1]), if_neg (by omega), if_neg (by simp [h3])]

theorem normalize_pr (ev : webhookEvent) :
    normalizeEvent "pull_request" ev = NormOutcome.proceed "" ""
      (ev.action ++ ":" ++ if ev.pullRequest.merged then "merged" else "unmerged") := by
  unfold normalizeEvent finishNorm
  rw [if_neg (by decide), if_neg (by decide), if_pos rfl,
    if_neg (colon_append_ne_empty _ _)]

theorem normalize_comment_wrong_action (et : String) (ev : webhookEvent)
    (hk : et = "issue_comment" ∨ et = "pull_request_review_comment")
    (ha : ev.action ≠ "created") :
    normalizeEvent et ev = NormOutcome.actionIgnored := by
  unfold normalizeEvent
  rw [if_pos hk, if_pos ha]

theorem normalize_unrecognized (et : String) (ev : webhookEvent)
    (h1 : ¬(et = "issue_comment" ∨ et = "pull_request_review_comment"))
    (h2 : ¬et = "pull_request_review") (h3 : ¬et = "pull_request") :
    normalizeEvent et ev = NormOutcome.eventIgnored := by
  unfold normalizeEvent
  rw [if_neg h1, if_neg h2, if_neg h3]

theorem unmarshal_action_of_none (fs : List (String × Json)) (ev : webhookEvent)
    (hu : unmarshalEvent (Json.obj fs) = some ev)
    (hn : jLookup fs "action" = none) :
    ev.action = "" := by
  have hds : decStr fs "action" = some "" := by simp [decStr, hn]
  simp only [unmarshalEvent, Option.bind_eq_bind, Option.bind_eq_some,
    Option.pure_def, Option.some.injEq] at hu
  obtain ⟨a, ha, cfs, _, c, _, ifs, _, i, _, rfs, _, r, _, pfs, _, p, _,
    qfs, _, q, _, hev⟩ := hu
  rw [hds] at ha
  cases ha
  rw [← hev]

/-! ### Claims -/

/-- Claim C1: for every rule whose events list is empty, the default set
(issue_comment, pull_request_review_comment, pull_request_review) is
substituted by the configuration loader, so an event of one of those three
kinds that passes the author and trigger checks matches the rule.  The
substitution itself is modelled from the spec (`applyEventDefault`); the
membership and match tests are the source's `eventMatches`/`ruleMatches`. -/
theorem C1_empty_events_get_default_kinds (wf : WorkflowConfig)
    (eventType author text : String)
    (hempty : wf.events = [])
    (hkind : eventType = "issue_comment" ∨ eventType = "pull_request_review_comment" ∨
      eventType = "pull_request_review")
    (hauthor : (wf.authors.isEmpty || authorAllowed author wf.authors) = true)
    (htrigger : triggerMatches wf.trigger text = true) :
    eventMatches eventType (applyEventDefault wf).events = true ∧
    ruleMatches eventType author text (applyEventDefault wf) = true := by
  have hev : (applyEventDefault wf).events =
      ["issue_comment", "pull_request_review_comment", "pull_request_review"] := by
    unfold applyEventDefault
    rw [if_pos hempty]
  have hem : eventMatches eventType (applyEventDefault wf).events = true := by
    rw [hev]
    rcases hkind with h | h | h <;> subst h <;> rfl
  refine ⟨hem, ?_⟩
  have hau : (applyEventDefault wf).authors = wf.authors := by
    unfold applyEventDefault
    by_cases h : wf.events = [] <;> simp [h]
  have htr : (applyEventDefault wf).trigger = wf.trigger := by
    unfold applyEventDefault
    by_cases h : wf.events = [] <;> simp [h]
  unfold ruleMatches
  rw [hem, hau, htr, hauthor, htrigger]
  rfl

/-- Concrete instance of C1: an empty events list, a passing author check
and a matching trigger, at the kind issue_comment. -/
theorem C1_empty_events_get_default_kinds_wit :
    triggerMatches "x" "x" = true ∧
    ruleMatches "issue_comment" "alice" "x"
      (applyEventDefault ⟨[], [], "x", "echo", "", 300⟩) = true :=
  ⟨by decide, (C1_empty_events_get_default_kinds ⟨[], [], "x", "echo", "", 300⟩
    "issue_comment" "alice" "x" rfl (Or.inl rfl) (by decide) (by decide)).2⟩

/-- Claim C3, counterexample: the claim quantifies over all secrets, but
at the empty secret the round trip fails — `VerifySignature` returns
false for the correctly computed signature because the empty-secret check
fires first. -/
theorem C3_roundtrip_fails_for_empty_secret_cx :
    VerifySignature []
      ("sha256=" ++ hexStr (hmacSha256 (strBytes "") [])) "" = false :=
  verify_empty_secret _ _

/-- Claim C3 as amended: for every body and every non-empty secret, the
prefixed hex HMAC-SHA-256 signature verifies; and verification fails for
every signature whose remainder after the prefix does not hex-decode to
exactly that HMAC — so altering the body or the signature fails
verification unless the alteration leaves the decoded-MAC comparison
unchanged. -/
theorem C3_roundtrip_nonempty_secret_and_mismatch_fails :
    (∀ (payload : List Nat) (secret : String), secret ≠ "" →
      VerifySignature payload
        ("sha256=" ++ hexStr (hmacSha256 (strBytes secret) payload)) secret = true) ∧
    (∀ (payload : List Nat) (secret : String) (rest : List Char),
      hexDecodeChars rest ≠ some (hmacSha256 (strBytes secret) payload) →
      VerifySignature payload (String.mk ("sha256=".data ++ rest)) secret = false) :=
  ⟨verify_roundtrip, verify_mismatch⟩

/-- Concrete instance of the amended C3: the round trip at body "hi" and
secret "k". -/
theorem C3_roundtrip_nonempty_secret_and_mismatch_fails_wit :
    ("k" : String) ≠ "" ∧
    VerifySignature (strBytes "hi")
      ("sha256=" ++ hexStr (hmacSha256 (strBytes "k") (strBytes "hi"))) "k" = true :=
  ⟨by decide,
   C3_roundtrip_nonempty_secret_and_mismatch_fails.1 (strBytes "hi") "k" (by decide)⟩

/-- Claim C4: `VerifySignature` fails closed — false for the empty secret
whatever the signature, false when the header lacks the `sha256=` prefix,
and false when the remainder after the prefix is not valid hex. -/
theorem C4_verify_fails_closed :
    (∀ (payload : List Nat) (sig : String), VerifySignature payload sig "" = false) ∧
    (∀ (payload : List Nat) (sig secret : String),
      stripLead "sha256=".data sig.data = none →
      VerifySignature payload sig secret = false) ∧
    (∀ (payload : List Nat) (secret : String) (rest : List Char),
      hexDecodeChars rest = none →
      VerifySignature payload (String.mk ("sha256=".data ++ rest)) secret = false) :=
  ⟨verify_empty_secret,
   verify_no_prefix,
   fun p sec rest h => verify_mismatch p sec rest (by rw [h]; simp)⟩

/-- Concrete instance of C4: a header without the prefix is rejected. -/
theorem C4_verify_fails_closed_wit :
    stripLead "sha256=".data "nope".data = none ∧
    VerifySignature [104] "nope" "k" = false :=
  ⟨rfl, C4_verify_fails_closed.2.1 [104] "nope" "k" rfl⟩

/-- Claim C7: `Sanitize` is idempotent — filtering out the fixed shell
metacharacter class twice equals filtering once. -/
theorem C7_sanitize_idempotent (s : String) :
    Sanitize (Sanitize s) = Sanitize s := by
  unfold Sanitize
  rw [show (String.mk (s.data.filter (fun c => !isShellMeta c))).data
      = s.data.filter (fun c => !isShellMeta c) from rfl]
  rw [List.filter_filter]
  simp only [Bool.and_self]

/-- Claim C8: a rule whose trigger does not compile is skipped — the loop
step leaves the accumulator unchanged for it (it never matches and never
launches), and removing the rule from the configuration does not change
the loop's outcome, so siblings are still evaluated and the result is
determined solely by the remaining rules. -/
theorem C8_invalid_trigger_rule_skipped (pre post : List (String × WorkflowConfig))
    (name : String) (wf : WorkflowConfig) (et ca ms : String)
    (hbad : regexpCompile wf.trigger = none) :
    (∀ acc, ruleStep et ca ms acc (name, wf) = acc) ∧
    ruleLoop (pre ++ (name, wf) :: post) et ca ms = ruleLoop (pre ++ post) et ca ms := by
  have hrm : ruleMatches et ca ms wf = false := by
    unfold ruleMatches triggerMatches
    rw [hbad]
    simp
  constructor
  · intro acc
    rw [ruleStep_eq]
    simp [hrm]
  · rw [ruleLoop_eq, ruleLoop_eq]
    have hmn : matchedNames et ca ms (pre ++ (name, wf) :: post)
        = matchedNames et ca ms (pre ++ post) := by
      unfold matchedNames
      rw [List.filter_append, List.filter_append, List.filter_cons]
      simp [hrm]
    rw [hmn]

/-- Concrete instance of C8: the pattern "(" does not compile, and the
rule carrying it drops out of a three-rule loop. -/
theorem C8_invalid_trigger_rule_skipped_wit :
    regexpCompile "(" = none ∧
    ruleLoop [("a", ⟨["issue_comment"], [], "x", "c", "", 5⟩),
              ("b", ⟨["issue_comment"], [], "(", "c", "", 5⟩),
              ("c", ⟨["issue_comment"], [], "x", "c", "", 5⟩)] "issue_comment" "" "x"
      = ruleLoop [("a", ⟨["issue_comment"], [], "x", "c", "", 5⟩),
                  ("c", ⟨["issue_comment"], [], "x", "c", "", 5⟩)] "issue_comment" "" "x" :=
  ⟨rfl,
   (C8_invalid_trigger_rule_skipped [("a", ⟨["issue_comment"], [], "x", "c", "", 5⟩)]
      [("c", ⟨["issue_comment"], [], "x", "c", "", 5⟩)] "b"
      ⟨["issue_comment"], [], "(", "c", "", 5⟩ "issue_comment" "" "x" rfl).2⟩

/-- Claim C10: a pull_request event always normalizes with an empty
author, so a rule whose author allowlist is non-empty and contains no
empty entry can never match and is never dispatched for that kind. -/
theorem C10_pr_rule_with_author_allowlist_never_matches
    (wf : WorkflowConfig) (ms : String) (ev : webhookEvent)
    (hne : wf.authors ≠ [])
    (hnoempty : ∀ a ∈ wf.authors, a ≠ "") :
    (∃ t, normalizeEvent "pull_request" ev = NormOutcome.proceed "" "" t) ∧
    ruleMatches "pull_request" "" ms wf = false ∧
    (∀ acc name, ruleStep "pull_request" "" ms acc (name, wf) = acc) := by
  have h1 : wf.authors.isEmpty = false := by
    cases hc : wf.authors
    · exact absurd hc hne
    · rfl
  have hrm : ruleMatches "pull_request" "" ms wf = false := by
    unfold ruleMatches
    rw [h1, authorAllowed_empty_author wf.authors hnoempty]
    simp
  exact ⟨⟨_, normalize_pr ev⟩, hrm,
    fun acc name => by rw [ruleStep_eq]; simp [hrm]⟩

/-- Concrete instance of C10: an allowlist of just octocat never matches
a pull_request event. -/
theorem C10_pr_rule_with_author_allowlist_never_matches_wit :
    (["octocat"] : List String) ≠ [] ∧
    ruleMatches "pull_request" "" "closed:merged"
      ⟨["pull_request"], ["octocat"], "closed", "c", "", 5⟩ = false :=
  ⟨by decide,
   (C10_pr_rule_with_author_allowlist_never_matches
      ⟨["pull_request"], ["octocat"], "closed", "c", "", 5⟩ "closed:merged"
      ⟨"", ⟨"", ⟨""⟩⟩, ⟨0⟩, ⟨"", ⟨""⟩⟩, ⟨0, false⟩, ⟨"", ""⟩⟩
      (by decide) (by decide)).2.1⟩

/-- Configuration for the C2 counterexample. -/
def cfgC2 : Config := ⟨"s", 7890, []⟩

/-- A POST with a valid signature over the single byte of an opening
brace — not valid JSON — and an unrecognized event-type header. -/
def reqC2 : HookRequest :=
  ⟨"POST", strBytes "\x7b",
   "sha256=773f585fb6bac0b73e6ac15e1ce01edacbc258ff9d586c59e60a12e92d2a0df4", "push"⟩

/-- Claim C2, counterexample: a signed POST whose event-type header is
unrecognized but whose body is not valid JSON gets 400 invalid JSON, not
200 event ignored — `json.Unmarshal` runs before the event-type switch. -/
theorem C2_kind_check_does_not_precede_parse_cx :
    VerifySignature reqC2.body reqC2.signatureHeader cfgC2.webhookSecret = true ∧
    Handler cfgC2 reqC2 = ⟨400, "invalid JSON\n", []⟩ ∧
    Handler cfgC2 reqC2 ≠ ⟨200, "event ignored\n", []⟩ := by
  have h2 : Handler cfgC2 reqC2 = ⟨400, "invalid JSON\n", []⟩ := by decide
  refine ⟨by decide, h2, ?_⟩
  rw [h2]
  decide

/-- Claim C2 as amended: for a signed POST within the size limit whose
body parses and decodes, an event-type header outside the four recognized
categories yields 200 event ignored; bodies that fail to parse get 400
first, because the parse precedes the kind check. -/
theorem C2_unrecognized_kind_ignored_when_json_ok (cfg : Config) (req : HookRequest)
    (ev : webhookEvent)
    (hm : req.method = "POST") (hlen : req.body.length ≤ 10485760)
    (hsig : VerifySignature req.body req.signatureHeader cfg.webhookSecret = true)
    (hparse : (jsonParse req.body).bind unmarshalEvent = some ev)
    (hkind : ¬(req.eventTypeHeader = "issue_comment" ∨
      req.eventTypeHeader = "pull_request_review_comment"))
    (hk2 : ¬req.eventTypeHeader = "pull_request_review")
    (hk3 : ¬req.eventTypeHeader = "pull_request") :
    Handler cfg req = ⟨200, "event ignored\n", []⟩ := by
  rw [Handler_stages cfg req hm hlen hsig, hparse]
  show afterNorm cfg req.eventTypeHeader (normalizeEvent req.eventTypeHeader ev) = _
  rw [normalize_unrecognized _ ev hkind hk2 hk3]
  rfl

/-- Configuration for the C2 witness. -/
def cfgC2w : Config := ⟨"s", 7890, []⟩

/-- A signed POST with the empty JSON object as body and event type
push. -/
def reqC2w : HookRequest :=
  ⟨"POST", strBytes "\x7b\x7d",
   "sha256=143ca8d517ba1b181025d732b1cf275d90104fca57bb02a565542978aa18c4b6", "push"⟩

/-- The zero event the empty object decodes to. -/
def evC2w : webhookEvent := ⟨"", ⟨"", ⟨""⟩⟩, ⟨0⟩, ⟨"", ⟨""⟩⟩, ⟨0, false⟩, ⟨"", ""⟩⟩

/-- Concrete instance of the amended C2. -/
theorem C2_unrecognized_kind_ignored_when_json_ok_wit :
    (jsonParse reqC2w.body).bind unmarshalEvent = some evC2w ∧
    Handler cfgC2w reqC2w = ⟨200, "event ignored\n", []⟩ :=
  ⟨rfl, C2_unrecognized_kind_ignored_when_json_ok cfgC2w reqC2w evC2w rfl (by decide)
    (by decide) rfl (by decide) (by decide) (by decide)⟩

/-- Claim C5: for every request that passes verification and
normalization, the set of dispatched rules is exactly the rules the match
predicate accepts, in configuration order — the loop has no early exit —
and whenever at least one rule matches the outcome is a single 202
workflow dispatched, however many matched. -/
theorem C5_every_matching_rule_dispatched (cfg : Config) (req : HookRequest)
    (ev : webhookEvent) (cb ca ms : String)
    (hm : req.method = "POST") (hlen : req.body.length ≤ 10485760)
    (hsig : VerifySignature req.body req.signatureHeader cfg.webhookSecret = true)
    (hparse : (jsonParse req.body).bind unmarshalEvent = some ev)
    (hnorm : normalizeEvent req.eventTypeHeader ev = NormOutcome.proceed cb ca ms) :
    (Handler cfg req).dispatched =
      matchedNames req.eventTypeHeader ca ms cfg.workflows ∧
    (matchedNames req.eventTypeHeader ca ms cfg.workflows ≠ [] →
      Handler cfg req =
        ⟨202, "workflow dispatched\n",
         matchedNames req.eventTypeHeader ca ms cfg.workflows⟩) := by
  have hh : Handler cfg req =
      if matchedNames req.eventTypeHeader ca ms cfg.workflows = [] then
        ⟨200, "no matching workflow\n",
         matchedNames req.eventTypeHeader ca ms cfg.workflows⟩
      else
        ⟨202, "workflow dispatched\n",
         matchedNames req.eventTypeHeader ca ms cfg.workflows⟩ := by
    rw [Handler_stages cfg req hm hlen hsig, hparse]
    show afterNorm cfg req.eventTypeHeader (normalizeEvent req.eventTypeHeader ev) = _
    rw [hnorm]
    show dispatchStage cfg req.eventTypeHeader ca ms = _
    rw [dispatchStage_eq]
  constructor
  · rw [hh]
    by_cases hmn : matchedNames req.eventTypeHeader ca ms cfg.workflows = [] <;>
      simp [hmn]
  · intro hne
    rw [hh, if_neg hne]

/-- Configuration for the C5 witness: two rules that both match. -/
def cfgC5 : Config := ⟨"s", 7890,
  [("r1", ⟨["issue_comment"], [], "/cc", "c1", "", 300⟩),
   ("r2", ⟨["issue_comment"], [], "cc go", "c2", "", 300⟩)]⟩

/-- A signed POST carrying a created comment whose body both triggers
match. -/
def reqC5 : HookRequest := ⟨"POST",
  strBytes "\x7b\"action\":\"created\",\"comment\":\x7b\"body\":\"/cc go\",\"user\":\x7b\"login\":\"alice\"\x7d\x7d\x7d",
  "sha256=aa6c171e6eac3f08ecd8590e9e97807a39a6f697c6bc2ef99e41911908bfa4f9",
  "issue_comment"⟩

/-- The event the C5 witness body decodes to. -/
def evC5 : webhookEvent :=
  ⟨"created", ⟨"/cc go", ⟨"alice"⟩⟩, ⟨0⟩, ⟨"", ⟨""⟩⟩, ⟨0, false⟩, ⟨"", ""⟩⟩

/-- Concrete instance of C5: both matching rules are dispatched under one
202. -/
theorem C5_every_matching_rule_dispatched_wit :
    matchedNames reqC5.eventTypeHeader "alice" "/cc go" cfgC5.workflows = ["r1", "r2"] ∧
    Handler cfgC5 reqC5 = ⟨202, "workflow dispatched\n", ["r1", "r2"]⟩ := by
  have hmn : matchedNames reqC5.eventTypeHeader "alice" "/cc go" cfgC5.workflows
      = ["r1", "r2"] := by decide
  have h := (C5_every_matching_rule_dispatched cfgC5 reqC5 evC5 "/cc go" "alice" "/cc go"
    rfl (by decide) (by decide) rfl rfl).2 (by rw [hmn]; decide)
  rw [hmn] at h
  exact ⟨hmn, h⟩

/-- Configuration for C6: one rule listening to pull_request with the
anchored trigger. -/
def cfgC6 : Config := ⟨"s", 7890,
  [("cleanup", ⟨["pull_request"], [], "^closed:merged$", "echo cleanup", "", 5⟩)]⟩

/-- A signed POST for a closed, merged pull request. -/
def reqC6m : HookRequest := ⟨"POST",
  strBytes "\x7b\"action\":\"closed\",\"pull_request\":\x7b\"number\":42,\"merged\":true\x7d\x7d",
  "sha256=149982feb5bb2fe0303aae61d8d17a365ae7875d6aea69883045392c681082ef",
  "pull_request"⟩

/-- A signed POST for a closed, unmerged pull request. -/
def reqC6u : HookRequest := ⟨"POST",
  strBytes "\x7b\"action\":\"closed\",\"pull_request\":\x7b\"number\":42,\"merged\":false\x7d\x7d",
  "sha256=695b453d49c88b6465909d3bb08f1a6bb1e2c73edfb12b6b17227e17e242e557",
  "pull_request"⟩

/-- Claim C6: a pull_request event passes no action filter, its match
text is synthesized as action:merged or action:unmerged, and its author
is empty; with the rule anchored on closed:merged, the merged event is
dispatched with 202 and the unmerged one gets 200 not dispatched. -/
theorem C6_pull_request_no_action_filter_match_text :
    (∀ ev : webhookEvent, normalizeEvent "pull_request" ev =
      NormOutcome.proceed "" ""
        (ev.action ++ ":" ++ if ev.pullRequest.merged then "merged" else "unmerged")) ∧
    Handler cfgC6 reqC6m = ⟨202, "workflow dispatched\n", ["cleanup"]⟩ ∧
    Handler cfgC6 reqC6u = ⟨200, "no matching workflow\n", []⟩ :=
  ⟨normalize_pr, by decide, by decide⟩

/-- Configuration for the C9 counterexample. -/
def cfgC9 : Config := ⟨"s", 7890, []⟩

/-- A signed POST whose body is the valid JSON array, which contains no
action key but does not decode into the event struct. -/
def reqC9 : HookRequest := ⟨"POST", strBytes "[]",
  "sha256=e13df6323e9c2719a9c05260b77fe9998029744f9b2eafb979f95d583e726e12",
  "issue_comment"⟩

/-- Claim C9, counterexample: a body that is valid JSON without an action
key but is not an object fails struct decoding, so the handler answers
400 invalid JSON rather than 200 action ignored. -/
theorem C9_valid_json_no_action_can_be_400_cx :
    jsonParse reqC9.body = some (Json.arr []) ∧
    VerifySignature reqC9.body reqC9.signatureHeader cfgC9.webhookSecret = true ∧
    Handler cfgC9 reqC9 = ⟨400, "invalid JSON\n", []⟩ := by
  refine ⟨rfl, by decide, by decide⟩

/-- Claim C9 as amended: for a signed POST of a comment kind whose body
is a JSON object that decodes into the event struct and has no action
key, the absent action decodes to the empty string and the handler
answers 200 action ignored, exactly as for a wrong action. -/
theorem C9_decodable_missing_action_ignored (cfg : Config) (req : HookRequest)
    (fs : List (String × Json)) (ev : webhookEvent)
    (hm : req.method = "POST") (hlen : req.body.length ≤ 10485760)
    (hsig : VerifySignature req.body req.signatureHeader cfg.webhookSecret = true)
    (hj : jsonParse req.body = some (Json.obj fs))
    (hu : unmarshalEvent (Json.obj fs) = some ev)
    (hnoact : jLookup fs "action" = none)
    (hkind : req.eventTypeHeader = "issue_comment" ∨
      req.eventTypeHeader = "pull_request_review_comment") :
    ev.action = "" ∧ Handler cfg req = ⟨200, "action ignored\n", []⟩ := by
  have hact := unmarshal_action_of_none fs ev hu hnoact
  refine ⟨hact, ?_⟩
  have hparse : (jsonParse req.body).bind unmarshalEvent = some ev := by
    rw [hj]
    exact hu
  rw [Handler_stages cfg req hm hlen hsig, hparse]
  show afterNorm cfg req.eventTypeHeader (normalizeEvent req.eventTypeHeader ev) = _
  rw [normalize_comment_wrong_action req.eventTypeHeader ev hkind (by rw [hact]; decide)]
  rfl

/-- Configuration for the C9 witness. -/
def cfgC9w : Config := ⟨"s", 7890, []⟩

/-- A signed POST with the empty JSON object as body and a comment event
type. -/
def reqC9w : HookRequest := ⟨"POST", strBytes "\x7b\x7d",
  "sha256=143ca8d517ba1b181025d732b1cf275d90104fca57bb02a565542978aa18c4b6",
  "issue_comment"⟩

/-- The zero event the empty object decodes to. -/
def evC9w : webhookEvent := ⟨"", ⟨"", ⟨""⟩⟩, ⟨0⟩, ⟨"", ⟨""⟩⟩, ⟨0, false⟩, ⟨"", ""⟩⟩

/-- Concrete instance of the amended C9. -/
theorem C9_decodable_missing_action_ignored_wit :
    jLookup ([] : List (String × Json)) "action" = none ∧
    Handler cfgC9w reqC9w = ⟨200, "action ignored\n", []⟩ :=
  ⟨rfl, (C9_decodable_missing_action_ignored cfgC9w reqC9w [] evC9w rfl (by decide)
    (by decide) rfl rfl rfl (Or.inl rfl)).2⟩
